import Mathlib

/-
Shallow embedding of the request/response adapter in
src/services/geminiService.ts.

Requests are modelled as the concrete data values the adapter would hand to
the vendor SDK, responses as the data values the SDK would hand back; the
network transport itself is outside the program.  JavaScript truthiness on
strings (the empty string is falsy) is modelled explicitly wherever the
source relies on it.
-/

set_option autoImplicit false

/-- An attachment as supplied by the caller: `{ name, mimeType, data }`. -/
structure Attachment where
  name : String
  mimeType : String
  data : String
  deriving DecidableEq, Repr

/--
A request content part: either an inline binary fragment
`{ inlineData: { mimeType, data } }` or a text fragment `{ text }`.
The `data` field of an inline fragment is an `Option` because
`editImage` can produce `undefined` there (`split(',')[1]` on a
comma-free string).
-/
inductive ContentPart where
  | inlineData (mimeType : String) (data : Option String)
  | text (s : String)
  deriving DecidableEq, Repr

/-- Classification of one attachment into a content part
(`streamChat`, loop body at src/services/geminiService.ts:39-62). -/
def classifyAttachment (att : Attachment) : ContentPart :=
  if att.mimeType = "application/pdf" then
    ContentPart.inlineData "application/pdf" (some att.data)
  else if att.mimeType.startsWith "image/" then
    ContentPart.inlineData att.mimeType (some att.data)
  else
    ContentPart.text ("\n[Context from file \"" ++ att.name ++ "\":]\n" ++ att.data ++ "\n")

/-- JavaScript `String.prototype.trim`: strip leading and trailing
whitespace. -/
def jsTrim (s : String) : String :=
  String.mk (((s.data.dropWhile Char.isWhitespace).reverse.dropWhile Char.isWhitespace).reverse)

/-- The `currentParts` array built by `streamChat`
(src/services/geminiService.ts:36-67): one part per attachment in order,
then the text prompt when `message.trim()` is truthy. -/
def currentParts (message : String) (attachments : List Attachment) : List ContentPart :=
  attachments.map classifyAttachment ++
    (bif jsTrim message != "" then [ContentPart.text message] else [])

/-- JavaScript truthiness of `part.text`: the part has a `text` field holding
a non-empty string. -/
def textFieldTruthy : ContentPart → Bool
  | ContentPart.text s => s != ""
  | ContentPart.inlineData _ _ => false

/-- The `message` argument of `sendMessageStream`: either a bare string or a
part array. -/
inductive MessagePayload where
  | textMsg (s : String)
  | partsMsg (ps : List ContentPart)
  deriving DecidableEq, Repr

/-- `currentParts.length === 1 && currentParts[0].text ? currentParts[0].text
: currentParts` (src/services/geminiService.ts:84). -/
def selectMessage (parts : List ContentPart) : MessagePayload :=
  match parts with
  | [ContentPart.text s] =>
    bif s != "" then MessagePayload.textMsg s else MessagePayload.partsMsg parts
  | _ => MessagePayload.partsMsg parts

/-- A caller-supplied history entry: `role` and `parts` plus whatever extra
runtime fields the caller's object happens to carry. -/
structure HistoryEntry where
  role : String
  parts : List ContentPart
  extraFields : List (String × String)
  deriving DecidableEq, Repr

/-- A history entry as placed in the outgoing request: only `role` and
`parts`. -/
structure SanitizedHistoryEntry where
  role : String
  parts : List ContentPart
  deriving DecidableEq, Repr

/-- `history.map(h => ({ role: h.role, parts: h.parts }))`
(src/services/geminiService.ts:70-73). -/
def historyParts (history : List HistoryEntry) : List SanitizedHistoryEntry :=
  history.map (fun h => ⟨h.role, h.parts⟩)

/-- A tool activation; the source only ever uses `{ googleSearch: {} }`. -/
inductive Tool where
  | googleSearch
  deriving DecidableEq, Repr

/-- The `tools` array built by `streamChat`
(src/services/geminiService.ts:30-33). -/
def streamChatTools (search : Bool) : List Tool :=
  bif search then [Tool.googleSearch] else []

/-- `tools.length > 0 ? tools : undefined` (src/services/geminiService.ts:79). -/
def configTools (tools : List Tool) : Option (List Tool) :=
  if tools.length > 0 then some tools else none

/-- The outgoing chat request assembled by `streamChat`: model id, sanitized
history, optional tools, and the message payload. -/
structure StreamChatRequest where
  model : String
  history : List SanitizedHistoryEntry
  tools : Option (List Tool)
  message : MessagePayload
  deriving DecidableEq, Repr

/-- `streamChat` (src/services/geminiService.ts:21-86) as a function from its
inputs to the outgoing request it hands to the SDK. -/
def streamChat (modelId : String) (history : List HistoryEntry) (message : String)
    (attachments : List Attachment) (groundingSearch : Bool) : StreamChatRequest :=
  ⟨modelId, historyParts history, configTools (streamChatTools groundingSearch),
    selectMessage (currentParts message attachments)⟩

/-- `inlineData` of a response part: `{ mimeType?, data? }`. -/
structure InlineData where
  mimeType : Option String
  data : Option String
  deriving DecidableEq, Repr

/-- A response content part; only `text` and `inlineData` are consumed. -/
structure ResponsePart where
  text : Option String
  inlineData : Option InlineData
  deriving DecidableEq, Repr

/-- `candidate.content` of a response. -/
structure ResponseContent where
  parts : Option (List ResponsePart)
  deriving DecidableEq, Repr

/-- One response candidate. -/
structure Candidate where
  content : Option ResponseContent
  deriving DecidableEq, Repr

/-- The response object returned by `generateContent`: candidates plus the
aggregated `text` accessor. -/
structure GenerateContentResponse where
  candidates : Option (List Candidate)
  text : Option String
  deriving DecidableEq, Repr

/-- The optional chain `response.candidates?.[0]?.content?.parts`
(src/services/geminiService.ts:106). -/
def firstCandidateParts (response : GenerateContentResponse) : Option (List ResponsePart) :=
  match response.candidates with
  | some (c :: _) =>
    match c.content with
    | some content => content.parts
    | none => none
  | _ => none

/-- The image-collecting loop of `generateImage`/`editImage`
(src/services/geminiService.ts:107-111): push
`data:image/png;base64,` ++ data for every part where
`part.inlineData && part.inlineData.data` is truthy. -/
def imagesLoop (parts : List ResponsePart) (images : List String) : List String :=
  match parts with
  | [] => images
  | part :: rest =>
    match part.inlineData with
    | some idata =>
      match idata.data with
      | some d =>
        bif d != "" then imagesLoop rest (images ++ ["data:image/png;base64," ++ d])
        else imagesLoop rest images
      | none => imagesLoop rest images
    | none => imagesLoop rest images

/-- The `images` value returned by `generateImage`/`editImage`
(src/services/geminiService.ts:105-113 and 134-142). -/
def extractImages (response : GenerateContentResponse) : List String :=
  match firstCandidateParts response with
  | some parts => imagesLoop parts []
  | none => []

/-- `generateImage`'s returned image list as a function of the response. -/
def generateImageImages : GenerateContentResponse → List String :=
  extractImages

/-- `editImage`'s returned image list as a function of the response. -/
def editImageImages : GenerateContentResponse → List String :=
  extractImages

/-- Spec-side helper: the base64 data of a response part when it is an
inline-image fragment (inlineData present with truthy data), else `none`. -/
def inlineImageData (part : ResponsePart) : Option String :=
  match part.inlineData with
  | some idata =>
    match idata.data with
    | some d => bif d != "" then some d else none
    | none => none
  | none => none

/-- Spec-side helper: the data of every inline-image fragment of the first
candidate, in order. -/
def imageFragmentDatas (response : GenerateContentResponse) : List String :=
  ((firstCandidateParts response).getD []).filterMap inlineImageData

/-- JavaScript `s.split(sep)` for a single-character separator, over the
character list of the string. -/
def jsSplit (sep : Char) : List Char → List (List Char)
  | [] => [[]]
  | c :: rest =>
    if c = sep then
      [] :: jsSplit sep rest
    else
      match jsSplit sep rest with
      | [] => [[c]]
      | h :: t => (c :: h) :: t

/-- JavaScript `s.split(sep)` at the string level. -/
def jsSplitOn (sep : Char) (s : String) : List String :=
  (jsSplit sep s.data).map (fun cs => String.mk cs)

/-- The two-part `contents.parts` request built by `editImage`
(src/services/geminiService.ts:121-131): inline JPEG fragment carrying
`base64Image.split(',')[1]`, then the text prompt. -/
def editImageRequestParts (base64Image : String) (prompt : String) : List ContentPart :=
  [ContentPart.inlineData "image/jpeg" ((jsSplitOn ',' base64Image)[1]?),
    ContentPart.text prompt]

/-- The host key-selection surface `window.aistudio`, when present with both
methods: the result of `hasSelectedApiKey()` before the dialog and the result
of the re-check after `openSelectKey()`. -/
structure KeySurface where
  hasKeyFirst : Bool
  hasKeyAfterDialog : Bool
  deriving DecidableEq, Repr

/-- Observable actions of a gated call, used to state that a failure happens
before any network call. -/
inductive CallEvent where
  | openKeyDialog
  | networkCall
  deriving DecidableEq, Repr

/-- `ensureApiKey` (src/services/geminiService.ts:5-17): the events it
performs and its outcome. -/
def ensureApiKeyRun : Option KeySurface → List CallEvent × Except String Unit
  | none => ([], Except.ok ())
  | some s =>
    if s.hasKeyFirst then ([], Except.ok ())
    else if s.hasKeyAfterDialog then ([CallEvent.openKeyDialog], Except.ok ())
    else ([CallEvent.openKeyDialog],
      Except.error "API Key selection is required for this feature.")

/-- `generateImage` (src/services/geminiService.ts:88-114): runs
`ensureApiKey`, then issues the network call and extracts images.  Returns
the event trace together with the outcome. -/
def generateImageRun (surface : Option KeySurface) (response : GenerateContentResponse) :
    List CallEvent × Except String (List String) :=
  match ensureApiKeyRun surface with
  | (events, Except.error e) => (events, Except.error e)
  | (events, Except.ok _) =>
    (events ++ [CallEvent.networkCall], Except.ok (extractImages response))

/-- One slide of the structured outline. -/
structure SlideContent where
  title : String
  content : List String
  speakerNotes : Option String
  deriving DecidableEq, Repr

/-- The structured outline `{ slides, sentiment, themeColor }`. -/
structure PresentationStructure where
  slides : List SlideContent
  sentiment : String
  themeColor : String
  deriving DecidableEq, Repr

/-- JavaScript truthiness of `response.text`: present and non-empty. -/
def textTruthy : Option String → Bool
  | some t => t != ""
  | none => false

/-- The response handling of `generateSlideContent`
(src/services/geminiService.ts:194-202): `jsonParse` stands for the host
`JSON.parse` (`none` = the parse throws).  `Except.error` models a thrown
error, `Except.ok none` the `return null` path. -/
def generateSlideContent (jsonParse : String → Option PresentationStructure)
    (responseText : Option String) : Except String (Option PresentationStructure) :=
  bif textTruthy responseText then
    match jsonParse (responseText.getD "") with
    | some v => Except.ok (some v)
    | none => Except.error "Failed to generate valid slide structure."
  else
    Except.ok none

/-- The `tools` array of `analyzeStock`'s request
(src/services/geminiService.ts:224): always the web-search tool. -/
def analyzeStockTools : List Tool :=
  [Tool.googleSearch]

/-- `analyzeStock` returns the raw response object unparsed
(src/services/geminiService.ts:228). -/
def analyzeStock (response : GenerateContentResponse) : GenerateContentResponse :=
  response

/-
Helper lemmas shared by several claim theorems.
-/

/-- Looking up an index inside the attachment range of `currentParts` yields
the classification of the attachment at that index. -/
theorem currentParts_getElem_attachment (message : String) (attachments : List Attachment)
    (i : Nat) (att : Attachment) (h : attachments[i]? = some att) :
    (currentParts message attachments)[i]? = some (classifyAttachment att) := by
  have hi : i < attachments.length := by
    by_contra hge
    rw [List.getElem?_eq_none (Nat.le_of_not_lt hge)] at h
    exact Option.noConfusion h
  have hg : attachments[i] = att := by
    rw [List.getElem?_eq_getElem hi] at h
    exact Option.some.inj h
  unfold currentParts
  simp [List.getElem?_append, hi, hg]

/-- The accumulator-passing image loop is append of the mapped fragment
data. -/
theorem imagesLoop_eq (parts : List ResponsePart) (images : List String) :
    imagesLoop parts images
      = images
        ++ (parts.filterMap inlineImageData).map (fun d => "data:image/png;base64," ++ d) := by
  induction parts generalizing images with
  | nil => simp [imagesLoop]
  | cons part rest ih =>
    cases hpi : part.inlineData with
    | none => simp [imagesLoop, hpi, inlineImageData, ih]
    | some idata =>
      cases hd : idata.data with
      | none => simp [imagesLoop, hpi, hd, inlineImageData, ih]
      | some d =>
        cases hde : d != "" <;>
          simp [imagesLoop, hpi, hd, inlineImageData, hde, ih]

/-- `jsSplit` never returns the empty list. -/
theorem jsSplit_ne_nil (sep : Char) (l : List Char) : jsSplit sep l ≠ [] := by
  cases l with
  | nil => simp [jsSplit]
  | cons c rest =>
    simp only [jsSplit]
    split
    · simp
    · split <;> simp

/-- Splitting a list free of the separator yields that list alone. -/
theorem jsSplit_of_not_mem (sep : Char) (l : List Char) (h : sep ∉ l) :
    jsSplit sep l = [l] := by
  induction l with
  | nil => rfl
  | cons c rest ih =>
    have hc : ¬ c = sep := fun hcs => h (hcs ▸ List.mem_cons_self c rest)
    have hr : sep ∉ rest := fun hm => h (List.mem_cons_of_mem _ hm)
    simp [jsSplit, hc, ih hr]

/-- Splitting `p ++ sep :: r` when `p` is separator-free peels off `p`. -/
theorem jsSplit_append (sep : Char) (p r : List Char) (hp : sep ∉ p) :
    jsSplit sep (p ++ sep :: r) = p :: jsSplit sep r := by
  induction p with
  | nil => simp [jsSplit]
  | cons c pr ih =>
    have hc : ¬ c = sep := fun hcs => hp (hcs ▸ List.mem_cons_self c pr)
    have hpr : sep ∉ pr := fun hm => hp (List.mem_cons_of_mem _ hm)
    simp [jsSplit, hc, ih hpr]

/-
Claim theorems.
-/

/-- C1: the current-turn part sequence built by `streamChat` has exactly one
part per attachment, in attachment order — an inline-binary part carrying the
attachment's mimeType and data when the mimeType is exactly
`application/pdf` or starts with `image/`, otherwise a single labeled-text
part embedding the attachment's name and data — followed by one final text
part containing the message if and only if the message is non-blank. -/
theorem streamChat_currentParts_spec (message : String) (attachments : List Attachment) :
    (currentParts message attachments).length
        = attachments.length + (bif jsTrim message != "" then 1 else 0)
    ∧ (∀ (i : Nat) (att : Attachment), attachments[i]? = some att →
        att.mimeType = "application/pdf" →
        (currentParts message attachments)[i]?
          = some (ContentPart.inlineData "application/pdf" (some att.data)))
    ∧ (∀ (i : Nat) (att : Attachment), attachments[i]? = some att →
        att.mimeType ≠ "application/pdf" → att.mimeType.startsWith "image/" = true →
        (currentParts message attachments)[i]?
          = some (ContentPart.inlineData att.mimeType (some att.data)))
    ∧ (∀ (i : Nat) (att : Attachment), attachments[i]? = some att →
        att.mimeType ≠ "application/pdf" → att.mimeType.startsWith "image/" = false →
        (currentParts message attachments)[i]?
          = some (ContentPart.text
              ("\n[Context from file \"" ++ att.name ++ "\":]\n" ++ att.data ++ "\n")))
    ∧ (jsTrim message ≠ "" →
        (currentParts message attachments)[attachments.length]?
          = some (ContentPart.text message))
    ∧ (jsTrim message = "" →
        (currentParts message attachments).length = attachments.length) := by
  refine ⟨?_, ?_, ?_, ?_, ?_, ?_⟩
  · cases hb : jsTrim message != "" <;> simp [currentParts, hb]
  · intro i att h hpdf
    rw [currentParts_getElem_attachment message attachments i att h]
    simp [classifyAttachment, hpdf]
  · intro i att h hpdf himg
    rw [currentParts_getElem_attachment message attachments i att h]
    simp [classifyAttachment, hpdf, himg]
  · intro i att h hpdf himg
    rw [currentParts_getElem_attachment message attachments i att h]
    simp [classifyAttachment, hpdf, himg]
  · intro hmsg
    have hb : (jsTrim message != "") = true := by simp [bne_iff_ne, hmsg]
    unfold currentParts
    rw [hb]
    rw [List.getElem?_append_right (by simp)]
    simp
  · intro hmsg
    simp [currentParts, hmsg]

/-- Witness for C1 at a concrete input: one PDF attachment and message
`"hi"`. -/
theorem streamChat_currentParts_spec_witness :
    (currentParts "hi" [⟨"doc.pdf", "application/pdf", "QUJD"⟩])[0]?
        = some (ContentPart.inlineData "application/pdf" (some "QUJD"))
    ∧ (currentParts "hi" [⟨"doc.pdf", "application/pdf", "QUJD"⟩])[1]?
        = some (ContentPart.text "hi") :=
  ⟨(streamChat_currentParts_spec "hi" [⟨"doc.pdf", "application/pdf", "QUJD"⟩]).2.1 0
      ⟨"doc.pdf", "application/pdf", "QUJD"⟩ rfl rfl,
    (streamChat_currentParts_spec "hi" [⟨"doc.pdf", "application/pdf", "QUJD"⟩]).2.2.2.2.1
      (by decide)⟩

/-- C2: `generateImage` and `editImage` return exactly one entry per
inline-image fragment of the first candidate, in order, each entry being
`data:image/png;base64,` concatenated with the fragment's data; with no
candidates, no parts, or no inline-image fragments the result is the empty
list. -/
theorem images_extraction_spec (response : GenerateContentResponse) :
    generateImageImages response
        = (imageFragmentDatas response).map (fun d => "data:image/png;base64," ++ d)
    ∧ editImageImages response
        = (imageFragmentDatas response).map (fun d => "data:image/png;base64," ++ d)
    ∧ generateImageImages ⟨none, none⟩ = [] := by
  have h : extractImages response
      = (imageFragmentDatas response).map (fun d => "data:image/png;base64," ++ d) := by
    unfold extractImages imageFragmentDatas
    cases firstCandidateParts response with
    | none => simp
    | some parts => simpa using imagesLoop_eq parts []
  exact ⟨h, h, rfl⟩

/-- C3: the three outcomes of `generateSlideContent` on a response carrying
text: parsed object when the text parses, the descriptive error
`Failed to generate valid slide structure.` when parsing fails, and `null`
when the response carries no text. -/
theorem generateSlideContent_outcomes
    (jsonParse : String → Option PresentationStructure) (t : String) (ht : t ≠ "") :
    (∀ v : PresentationStructure, jsonParse t = some v →
        generateSlideContent jsonParse (some t) = Except.ok (some v))
    ∧ (jsonParse t = none →
        generateSlideContent jsonParse (some t)
          = Except.error "Failed to generate valid slide structure.")
    ∧ generateSlideContent jsonParse none = Except.ok none := by
  have hb : textTruthy (some t) = true := by simp [textTruthy, bne_iff_ne, ht]
  refine ⟨?_, ?_, rfl⟩
  · intro v hv
    simp [generateSlideContent, hb, hv]
  · intro hv
    simp [generateSlideContent, hb, hv]

/-- Witness for C3 at a concrete parser and concrete texts. -/
theorem generateSlideContent_outcomes_witness :
    generateSlideContent
        (fun s => bif s == "ok" then some ⟨[], "neutral", "#001122"⟩ else none)
        (some "ok")
      = Except.ok (some ⟨[], "neutral", "#001122"⟩) :=
  (generateSlideContent_outcomes
      (fun s => bif s == "ok" then some ⟨[], "neutral", "#001122"⟩ else none)
      "ok" (by decide)).1 ⟨[], "neutral", "#001122"⟩ rfl

/-- C10: `generateSlideContent` returns `null` when the response text is
absent or the empty string; the parser is never consulted in either case
(the result holds for every `jsonParse`, including one that would fail on
the empty string). -/
theorem generateSlideContent_empty_text
    (jsonParse : String → Option PresentationStructure) :
    generateSlideContent jsonParse none = Except.ok none
    ∧ generateSlideContent jsonParse (some "") = Except.ok none :=
  ⟨rfl, rfl⟩

/-- C8: `generateSlideContent` does not enforce the requested slide count:
whenever the text parses, the parsed object is returned unchanged even when
its slides array length differs from the requested count. -/
theorem generateSlideContent_no_count_enforcement
    (jsonParse : String → Option PresentationStructure) (t : String) (count : Nat)
    (ps : PresentationStructure) (ht : t ≠ "") (hp : jsonParse t = some ps)
    (_hc : ps.slides.length ≠ count) :
    generateSlideContent jsonParse (some t) = Except.ok (some ps) := by
  have hb : textTruthy (some t) = true := by simp [textTruthy, bne_iff_ne, ht]
  simp [generateSlideContent, hb, hp]

/-- Witness for C8: an outline with zero slides returned unchanged although
five were requested. -/
theorem generateSlideContent_no_count_enforcement_witness :
    generateSlideContent (fun _ => some ⟨[], "urgent", "#AA0000"⟩) (some "body")
      = Except.ok (some ⟨[], "urgent", "#AA0000"⟩) :=
  generateSlideContent_no_count_enforcement (fun _ => some ⟨[], "urgent", "#AA0000"⟩)
    "body" 5 ⟨[], "urgent", "#AA0000"⟩ (by decide) rfl (by decide)

/-- C4: with the host capability surface absent, `generateImage` proceeds
straight to the network call without requesting a key; with the surface
present, no key selected, and the user declining selection, it fails with
`API Key selection is required for this feature.` and its event trace
contains no network call. -/
theorem generateImage_key_gate (response : GenerateContentResponse) :
    generateImageRun none response
        = ([CallEvent.networkCall], Except.ok (extractImages response))
    ∧ generateImageRun (some ⟨false, false⟩) response
        = ([CallEvent.openKeyDialog],
            Except.error "API Key selection is required for this feature.")
    ∧ (generateImageRun (some ⟨false, false⟩) response).1.contains CallEvent.networkCall
        = false :=
  ⟨rfl, rfl, rfl⟩

/-- C5: the history handed to the outgoing chat creation has the same length
and order as the input, each element being the corresponding input element
projected onto exactly its `role` and `parts` fields. -/
theorem streamChat_history_roundtrip (modelId : String) (history : List HistoryEntry)
    (message : String) (attachments : List Attachment) (search : Bool) :
    (streamChat modelId history message attachments search).history.length = history.length
    ∧ (∀ (i : Nat) (e : HistoryEntry), history[i]? = some e →
        (streamChat modelId history message attachments search).history[i]?
          = some ⟨e.role, e.parts⟩) := by
  constructor
  · simp [streamChat, historyParts]
  · intro i e he
    simp [streamChat, historyParts, he]

/-- Witness for C5: an entry with an extra runtime field is reproduced at its
index with only `role` and `parts` retained. -/
theorem streamChat_history_roundtrip_witness :
    (streamChat "m" [⟨"user", [ContentPart.text "q"], [("id", "7")]⟩] "" [] false).history[0]?
      = some ⟨"user", [ContentPart.text "q"]⟩ :=
  (streamChat_history_roundtrip "m" [⟨"user", [ContentPart.text "q"], [("id", "7")]⟩]
      "" [] false).2 0 ⟨"user", [ContentPart.text "q"], [("id", "7")]⟩ rfl

/-- C7: `streamChat` sets the `tools` field to the web-search tool exactly
when `grounding.search` is true and leaves it unset otherwise, while
`analyzeStock` always includes the web-search tool and returns the raw
response object unparsed. -/
theorem grounding_tools_spec :
    (∀ (modelId : String) (history : List HistoryEntry) (message : String)
        (attachments : List Attachment),
      (streamChat modelId history message attachments true).tools
        = some [Tool.googleSearch])
    ∧ (∀ (modelId : String) (history : List HistoryEntry) (message : String)
        (attachments : List Attachment),
      (streamChat modelId history message attachments false).tools = none)
    ∧ analyzeStockTools = [Tool.googleSearch]
    ∧ (∀ response : GenerateContentResponse, analyzeStock response = response) :=
  ⟨fun _ _ _ _ => rfl, fun _ _ _ _ => rfl, rfl, fun _ => rfl⟩

/-- C9: `streamChat` sends the bare text string when the constructed part
list is a single part with a non-empty text field, and the part array itself
in every other case: zero parts, two or more parts, a single inline-binary
part, or a single part whose text field is empty. -/
theorem streamChat_message_selection :
    (∀ (modelId : String) (history : List HistoryEntry) (message : String)
        (attachments : List Attachment) (search : Bool),
      (streamChat modelId history message attachments search).message
        = selectMessage (currentParts message attachments))
    ∧ (∀ s : String, s ≠ "" →
        selectMessage [ContentPart.text s] = MessagePayload.textMsg s)
    ∧ selectMessage [] = MessagePayload.partsMsg []
    ∧ (∀ (p q : ContentPart) (rest : List ContentPart),
        selectMessage (p :: q :: rest) = MessagePayload.partsMsg (p :: q :: rest))
    ∧ (∀ (m : String) (d : Option String),
        selectMessage [ContentPart.inlineData m d]
          = MessagePayload.partsMsg [ContentPart.inlineData m d])
    ∧ selectMessage [ContentPart.text ""] = MessagePayload.partsMsg [ContentPart.text ""] := by
  refine ⟨fun _ _ _ _ _ => rfl, ?_, rfl, ?_, fun m d => rfl, rfl⟩
  · intro s hs
    have hb : (s != "") = true := by simp [bne_iff_ne, hs]
    simp [selectMessage, hb]
  · intro p q rest
    cases p <;> rfl

/-- Witness for C9 at a concrete non-empty single text part. -/
theorem streamChat_message_selection_witness :
    selectMessage [ContentPart.text "hello"] = MessagePayload.textMsg "hello" :=
  streamChat_message_selection.2.1 "hello" (by decide)

/-- C6 counterexample: on the data-URI input `data:text/plain,a,b` (two
commas) the code sends `a`, the segment between the first and second comma,
not the substring `a,b` that follows the first comma as the claim states. -/
theorem editImage_split_counterexample :
    editImageRequestParts "data:text/plain,a,b" "edit"
        = [ContentPart.inlineData "image/jpeg" (some "a"), ContentPart.text "edit"]
    ∧ editImageRequestParts "data:text/plain,a,b" "edit"
        ≠ [ContentPart.inlineData "image/jpeg" (some "a,b"), ContentPart.text "edit"] := by
  constructor
  · rfl
  · decide

/-- C6 amended: `editImage` sends a two-part request — the inline JPEG
fragment first, then the text prompt — whose binary data is the second
comma-separated segment of the input; for a data URI whose prefix and
payload are comma-free (true of every base64 payload), that segment is
exactly the substring following the first comma. -/
theorem editImage_request_spec (p r prompt : String)
    (hp : (',' : Char) ∉ p.data) (hr : (',' : Char) ∉ r.data) :
    editImageRequestParts (p ++ "," ++ r) prompt
      = [ContentPart.inlineData "image/jpeg" (some r), ContentPart.text prompt] := by
  have hcomma : ("," : String).data = [','] := rfl
  have hdata : (p ++ "," ++ r).data = p.data ++ ',' :: r.data := by
    simp [String.data_append, hcomma]
  unfold editImageRequestParts jsSplitOn
  rw [hdata, jsSplit_append ',' p.data r.data hp, jsSplit_of_not_mem ',' r.data hr]
  simp

/-- Witness for the amended C6 at a concrete base64 data URI. -/
theorem editImage_request_spec_witness :
    editImageRequestParts ("data:image/jpeg;base64" ++ "," ++ "QUJDRA==") "make it blue"
      = [ContentPart.inlineData "image/jpeg" (some "QUJDRA=="),
          ContentPart.text "make it blue"] :=
  editImage_request_spec "data:image/jpeg;base64" "QUJDRA==" "make it blue"
    (by decide) (by decide)
